import Mathlib

/-!
Verification of the local-shape-descriptor engine in
`src/mala/gunpowder/add_local_shape_descriptor.py`.

The Python code is embedded shallowly:

* 3D volumes are total functions `ℤ × ℤ × ℤ → ℚ`; a numpy array of a given
  shape is modelled by a function that is zero outside its index bounds, so
  the `mode='constant', cval=0.0` (zero-padding) semantics of the scipy
  convolutions is automatic.
* Floating point arithmetic is modelled exactly over `ℚ`.  The two library
  functions whose numeric kernels are not part of this repository —
  `scipy.ndimage.gaussian_filter` (a Gaussian kernel built from `exp`) and
  `np.sqrt` — are abstract parameters of the model (fields of `Ctx`); every
  theorem below either holds for all instantiations or only needs the
  elementary facts stated as hypotheses (e.g. that a Gaussian filter of a
  nonnegative field is nonnegative, that the square root of a positive
  number is positive).
* `scipy.ndimage.filters.convolve` (used for the `sphere` mode) is modelled
  concretely: for a cubic kernel of side `n` it computes
  `out[p] = sum_j w[j] * in[p + n/2 - j]` with zero padding, which is the
  scipy origin convention for true convolution (kernel reversed, origin
  shifted by one for even-sized kernels).
* Fallible Python code (`assert`, `raise`) is modelled with
  `Except PyError`.  The line `raise RuntimeError("Unkown mode %s"%mode)` in
  `setup` refers to the undefined local name `mode` (the attribute is
  `self.mode`), so evaluating it raises `NameError`; the model returns
  `PyError.nameError "mode"` there.
* Arrays produced by `__aggregate` are sliced to the computation region
  (`[roi_slices]`).  The model keeps absolute indices and represents the
  slicing by `restrict`, which zeroes a function outside the region; indices
  the Python code never materialises are simply never read by the claims.
* In `__get_stats` every one of the ten `__aggregate` calls performs the
  same mode/isotropy validation on the same `sigma`; the model resolves the
  aggregation functional once per `__get_stats` call (`aggFunE`), which has
  the same error and value behaviour as checking at each call.
-/

namespace Mala

/-- A point of a 3D integer index grid (z, y, x ordering as in the code). -/
abbrev P3 := ℤ × ℤ × ℤ

/-- The 10-channel descriptor over the grid: channels
`[offset_z, offset_y, offset_x, var_z, var_y, var_x,
  pearson_zy, pearson_zx, pearson_yx, count]`. -/
abbrev Desc := Fin 10 → P3 → ℚ

/-- An axis-aligned box: offset and (nonnegative) shape per axis,
modelling `gunpowder.Roi` / numpy slice triples. -/
structure Roi where
  o1 : ℤ
  o2 : ℤ
  o3 : ℤ
  s1 : ℕ
  s2 : ℕ
  s3 : ℕ
deriving DecidableEq

/-- Membership of a grid point in a box. -/
def inRoiB (r : Roi) (p : P3) : Bool :=
  decide (r.o1 ≤ p.1) && decide (p.1 < r.o1 + r.s1) &&
  decide (r.o2 ≤ p.2.1) && decide (p.2.1 < r.o2 + r.s2) &&
  decide (r.o3 ≤ p.2.2) && decide (p.2.2 < r.o3 + r.s3)

/-- Model of slicing an array to a region: values outside the region are
never materialised by the code, which the total-function model renders as 0. -/
def restrict (r : Roi) (f : P3 → ℚ) : P3 → ℚ :=
  fun p => if inRoiB r p then f p else 0

/-- All grid points of a box, in C (row-major) order. -/
def pointsList (r : Roi) : List P3 :=
  (List.range r.s1).flatMap fun a =>
    (List.range r.s2).flatMap fun b =>
      (List.range r.s3).map fun c =>
        (r.o1 + (a : ℤ), r.o2 + (b : ℤ), r.o3 + (c : ℤ))

/-- Insertion into a sorted list of labels. -/
def insertSorted (x : ℤ) : List ℤ → List ℤ
  | [] => [x]
  | y :: ys => if x ≤ y then x :: y :: ys else y :: insertSorted x ys

/-- Insertion sort of a list of labels. -/
def sortInts : List ℤ → List ℤ
  | [] => []
  | x :: xs => insertSorted x (sortInts xs)

/-- Removal of adjacent duplicates (after sorting: all duplicates). -/
def dedupAdj : List ℤ → List ℤ
  | [] => []
  | [x] => [x]
  | x :: y :: ys => if x = y then dedupAdj (y :: ys) else x :: dedupAdj (y :: ys)

/-- Python exceptions raised by the code paths under verification. -/
inductive PyError where
  | nameError (name : String)
  | assertionError (msg : String)
  | runtimeError (msg : String)
deriving DecidableEq, Repr

/-- The two numeric library routines whose kernels live outside this
repository, kept abstract: `gauss` models
`scipy.ndimage.gaussian_filter(·, sigma, mode='constant', cval=0.0,
truncate=3.0)` for a per-axis sigma (in voxels), and `sqrtQ` models
`np.sqrt` on the nonnegative divisors it is applied to. -/
structure Ctx where
  gauss : (ℚ × ℚ × ℚ) → (P3 → ℚ) → P3 → ℚ
  sqrtQ : ℚ → ℚ

/-- `np.clip(x, 0.0, 1.0)`. -/
def clip01 (x : ℚ) : ℚ := max 0 (min x 1)

/-- Component access for a 3-vector of rationals. -/
def get3 (v : ℚ × ℚ × ℚ) (d : Fin 3) : ℚ :=
  if d.val = 0 then v.1 else if d.val = 1 then v.2.1 else v.2.2

/-- Length of `np.arange(-radius, radius)`, i.e. `ceil(2 * radius)`. -/
def sphereSize (r : ℚ) : ℕ := (Int.ceil (2 * r)).toNat

/-- `__make_sphere`: with `x_i = -radius + i` the entries of
`np.arange(-radius, radius)`, the kernel value at index `(i, j, k)` is 1
when `x_i^2 + x_j^2 + x_k^2 <= radius^2` and 0 otherwise; indices outside
the kernel extent hold no value, modelled as 0. -/
def makeSphere (r : ℚ) : P3 → ℚ :=
  fun j =>
    if 0 ≤ j.1 ∧ j.1 < (sphereSize r : ℤ) ∧
       0 ≤ j.2.1 ∧ j.2.1 < (sphereSize r : ℤ) ∧
       0 ≤ j.2.2 ∧ j.2.2 < (sphereSize r : ℤ) then
      (if ((j.1 : ℚ) - r) ^ 2 + ((j.2.1 : ℚ) - r) ^ 2 + ((j.2.2 : ℚ) - r) ^ 2
          ≤ r ^ 2 then 1 else 0)
    else 0

/-- `scipy.ndimage.filters.convolve(array, w, mode='constant', cval=0.0)`
for a cubic kernel of side `n`:
`out[p] = sum_j w[j] * in[p + n/2 - j]`, reading the zero-padded input. -/
def convolveK (n : ℕ) (w : P3 → ℚ) (f : P3 → ℚ) : P3 → ℚ :=
  fun p =>
    Finset.sum (Finset.range n) fun a =>
      Finset.sum (Finset.range n) fun b =>
        Finset.sum (Finset.range n) fun c =>
          w ((a : ℤ), (b : ℤ), (c : ℤ)) *
            f (p.1 + (n / 2 : ℕ) - a, p.2.1 + (n / 2 : ℕ) - b,
               p.2.2 + (n / 2 : ℕ) - c)

/-- The assertion message of `__aggregate` for anisotropic sphere sigma. -/
def isotropyMsg : String := "For mode sphere, only isotropic sigma is allowed."

/-- `__aggregate`, resolved to an aggregation functional for a fixed
`(sigma, mode, roi)`: Gaussian filtering or spherical convolution with zero
padding, restricted to the computation region; anisotropic sigma in sphere
mode is an `AssertionError`, an unknown mode a `RuntimeError`. -/
def aggFunE (ctx : Ctx) (sv : ℚ × ℚ × ℚ) (mode : String) (roi : Roi) :
    Except PyError ((P3 → ℚ) → P3 → ℚ) :=
  if mode = "gaussian" then
    Except.ok (fun f => restrict roi (ctx.gauss sv f))
  else if mode = "sphere" then
    (if sv.2.1 = sv.1 ∧ sv.2.2 = sv.1 then
      Except.ok (fun f =>
        restrict roi (convolveK (sphereSize sv.1) (makeSphere sv.1) f))
    else Except.error (PyError.assertionError isotropyMsg))
  else Except.error (PyError.runtimeError ("Unknown mode " ++ mode))

/-- One `__aggregate` call on a concrete field. -/
def aggregateE (ctx : Ctx) (f : P3 → ℚ) (sv : ℚ × ℚ × ℚ) (mode : String)
    (roi : Roi) : Except PyError (P3 → ℚ) :=
  (aggFunE ctx sv mode roi).map (fun A => A f)

/-- `count[count==0] = 1`: the in-place substitution avoiding division by
zero. -/
def substCount (c : P3 → ℚ) : P3 → ℚ :=
  fun p => if c p = 0 then 1 else c p

/-- `variance[variance<1e-3] = 1e-3`: the in-place variance floor. -/
def floorVar (v : P3 → ℚ) : P3 → ℚ :=
  fun p => if v p < 1 / 1000 then 1 / 1000 else v p

/-- The per-label statistics returned by `__get_stats`. -/
structure Stats where
  count : P3 → ℚ
  meanOffset : Fin 3 → P3 → ℚ
  variance : Fin 3 → P3 → ℚ
  pearson : Fin 3 → P3 → ℚ

/-- First axis of the three off-diagonal covariance pairs (zy, zx, yx). -/
def pairA (k : Fin 3) : Fin 3 := if k.val = 2 then 1 else 0

/-- Second axis of the three off-diagonal covariance pairs (zy, zx, yx). -/
def pairB (k : Fin 3) : Fin 3 := if k.val = 0 then 1 else 2

/-- The pure body of `__get_stats`, given a resolved aggregation functional
`A`: count with zero substitution, aggregated mean divided by count, offset
to the (region-restricted) coordinate grid, covariance from second moments
minus the outer product of the mean, variance floored at `1e-3` before its
use as Pearson divisor, then variance normalized by the world-unit
`self.sigma` squared. -/
def statsPure (sq : ℚ → ℚ) (A : (P3 → ℚ) → P3 → ℚ) (sigmaW : ℚ × ℚ × ℚ)
    (coords : Fin 3 → P3 → ℚ) (mask : P3 → ℚ) (roi : Roi) : Stats :=
  let count : P3 → ℚ := substCount (A mask)
  let mc : Fin 3 → P3 → ℚ := fun d q => coords d q * mask q
  let mean : Fin 3 → P3 → ℚ := fun d p => A (mc d) p / count p
  let meanOffset : Fin 3 → P3 → ℚ :=
    fun d p => mean d p - restrict roi (coords d) p
  let covDiag : Fin 3 → P3 → ℚ :=
    fun d p => A (fun q => mc d q * mc d q) p / count p - mean d p * mean d p
  let covOff : Fin 3 → P3 → ℚ :=
    fun k p => A (fun q => mc (pairA k) q * mc (pairB k) q) p / count p -
      mean (pairA k) p * mean (pairB k) p
  let fv : Fin 3 → P3 → ℚ := fun d => floorVar (covDiag d)
  let pearson : Fin 3 → P3 → ℚ :=
    fun k p => covOff k p / sq (fv (pairA k) p * fv (pairB k) p)
  let varianceN : Fin 3 → P3 → ℚ := fun d p => fv d p / get3 sigmaW d ^ 2
  { count := count, meanOffset := meanOffset, variance := varianceN,
    pearson := pearson }

/-- Parameters of a descriptor computation (`self.sigma` in world units,
the voxel size, `self.mode`, `self.downsample`). -/
structure Params where
  sigma : ℚ × ℚ × ℚ
  voxelSize : ℚ × ℚ × ℚ
  mode : String
  df : ℕ

/-- `sub_voxel_size = tuple(v*df for v in self.voxel_size)`. -/
def subVoxelSize (pp : Params) : ℚ × ℚ × ℚ :=
  (pp.voxelSize.1 * pp.df, pp.voxelSize.2.1 * pp.df, pp.voxelSize.2.2 * pp.df)

/-- `sub_sigma_voxel = tuple(s/v for s, v in zip(self.sigma, sub_voxel_size))`. -/
def subSigmaVoxel (pp : Params) : ℚ × ℚ × ℚ :=
  (pp.sigma.1 / (pp.voxelSize.1 * pp.df),
   pp.sigma.2.1 / (pp.voxelSize.2.1 * pp.df),
   pp.sigma.2.2 / (pp.voxelSize.2.2 * pp.df))

/-- `__get_stats` for one label: resolve the aggregation functional for the
given sigma and mode (the validation every `__aggregate` call performs),
then compute the pure statistics. -/
def getStatsE (ctx : Ctx) (pp : Params) (coords : Fin 3 → P3 → ℚ)
    (mask : P3 → ℚ) (sv : ℚ × ℚ × ℚ) (roi : Roi) : Except PyError Stats :=
  (aggFunE ctx sv pp.mode roi).map
    (fun A => statsPure ctx.sqrtQ A pp.sigma coords mask roi)

/-- The cached coordinate meshgrid: channel `d` holds `index_d *
sub_voxel_size_d` (physical coordinates of the subsampled grid). -/
def coordsF (svs : ℚ × ℚ × ℚ) (d : Fin 3) (p : P3) : ℚ :=
  (if d.val = 0 then (p.1 : ℚ) else if d.val = 1 then (p.2.1 : ℚ)
   else (p.2.2 : ℚ)) * get3 svs d

/-- `(segmentation == label).astype(np.float32)`: the full-volume binary
mask of one label (zero outside the array extent). -/
def maskOf (seg : P3 → ℤ) (shape : ℕ × ℕ × ℕ) (label : ℤ) : P3 → ℚ :=
  fun p =>
    if 0 ≤ p.1 ∧ p.1 < (shape.1 : ℤ) ∧ 0 ≤ p.2.1 ∧ p.2.1 < (shape.2.1 : ℤ) ∧
       0 ≤ p.2.2 ∧ p.2.2 < (shape.2.2 : ℤ) then
      (if seg p = label then 1 else 0)
    else 0

/-- `mask[::df, ::df, ::df]`: stride subsampling of the label mask. -/
def subMaskOf (seg : P3 → ℤ) (shape : ℕ × ℕ × ℕ) (label : ℤ) (df : ℕ) :
    P3 → ℚ :=
  fun q => maskOf seg shape label ((df : ℤ) * q.1, (df : ℤ) * q.2.1,
    (df : ℤ) * q.2.2)

/-- `np.unique(segmentation[roi_slices])` with the background label 0
dropped (the loop `continue`s on it): the sorted distinct nonzero labels
inside the computation region. -/
def labelsIn (seg : P3 → ℤ) (r : Roi) : List ℤ :=
  (dedupAdj (sortInts ((pointsList r).map seg))).filter (fun l => decide (l ≠ 0))

/-- `sub_roi = roi/df` (componentwise integer division, gunpowder-style). -/
def subRoi (r : Roi) (df : ℕ) : Roi :=
  ⟨r.o1.ediv df, r.o2.ediv df, r.o3.ediv df, r.s1 / df, r.s2 / df, r.s3 / df⟩

/-- Offset of a box as a point. -/
def roiOff (r : Roi) : P3 := (r.o1, r.o2, r.o3)

/-- Index of a point relative to the region start (the index into the
region-shaped descriptor arrays). -/
def fineRel (r : Roi) (p : P3) : P3 := (p.1 - r.o1, p.2.1 - r.o2, p.2.2 - r.o3)

/-- Componentwise addition on grid points. -/
def addP (a b : P3) : P3 := (a.1 + b.1, a.2.1 + b.2.1, a.2.2 + b.2.2)

/-- The `as_strided` view of `__upsample`: shape
`(C, s1, f, s2, f, s3, f)` with stride 0 on the three inserted axes, so the
value is independent of the inserted indices. -/
def upsampleView {C : Type} (A : C → P3 → ℚ) :
    C → (ℤ × ℤ) → (ℤ × ℤ) → (ℤ × ℤ) → ℚ :=
  fun ch a b c => A ch (a.1, b.1, c.1)

/-- `__upsample`: the strided view reshaped (C-order) to
`(C, s1*f, s2*f, s3*f)`; a fine index `i` addresses the view at
`(i / f, i % f)`. -/
def upsample {C : Type} (A : C → P3 → ℚ) (f : ℕ) : C → P3 → ℚ :=
  fun ch p =>
    upsampleView A ch (p.1.ediv (f : ℤ), p.1.emod (f : ℤ))
      (p.2.1.ediv (f : ℤ), p.2.1.emod (f : ℤ))
      (p.2.2.ediv (f : ℤ), p.2.2.emod (f : ℤ))

/-- The reference block-replication upsampling of the spec:
`fine_to_coarse(index) = index / f` (integer division) on each axis. -/
def upsampleSpecRef {C : Type} (A : C → P3 → ℚ) (f : ℕ) : C → P3 → ℚ :=
  fun ch p => A ch (p.1.ediv (f : ℤ), p.2.1.ediv (f : ℤ), p.2.2.ediv (f : ℤ))

/-- `np.concatenate([sub_mean_offset, sub_variance, sub_pearson,
sub_count[None,:]])`: the 10-channel per-label sub-descriptor. -/
def subDescOf (st : Stats) : Fin 10 → P3 → ℚ :=
  fun ch =>
    if h3 : ch.val < 3 then st.meanOffset ⟨ch.val, h3⟩
    else if h6 : ch.val < 6 then st.variance ⟨ch.val - 3, by omega⟩
    else if h9 : ch.val < 9 then st.pearson ⟨ch.val - 6, by omega⟩
    else st.count

/-- `descriptor * mask[roi_slices]` for one label: the sub-descriptor,
upsampled from the sub-region grid back to full resolution, masked to the
voxels of the label. -/
def contribution (st : Stats) (mask : P3 → ℚ) (roi : Roi) (df : ℕ) : Desc :=
  fun ch p =>
    upsample (fun (c : Fin 10) t => subDescOf st c (addP (roiOff (subRoi roi df)) t))
      df ch (fineRel roi p) * mask p

/-- One iteration of the label loop of `__get_descriptors`: compute the
statistics of the label on the subsampled grid and accumulate its masked,
upsampled descriptor. -/
def stepLabel (ctx : Ctx) (pp : Params) (seg : P3 → ℤ) (shape : ℕ × ℕ × ℕ)
    (roi : Roi) (acc : Desc) (label : ℤ) : Except PyError Desc :=
  (getStatsE ctx pp (coordsF (subVoxelSize pp)) (subMaskOf seg shape label pp.df)
      (subSigmaVoxel pp) (subRoi roi pp.df)).map
    (fun st => fun ch p => acc ch p + contribution st (maskOf seg shape label) roi pp.df ch p)

/-- The raw accumulated descriptor of `__get_descriptors` (lines 150-209):
`descriptors = np.zeros(...)` followed by the per-label loop. -/
def accumE (ctx : Ctx) (pp : Params) (seg : P3 → ℤ) (shape : ℕ × ℕ × ℕ)
    (roi : Roi) : Except PyError Desc :=
  (labelsIn seg roi).foldlM (stepLabel ctx pp seg shape roi) (fun _ _ => 0)

/-- `max_distance`: `sigma` for gaussian mode, `0.5*sigma` for sphere mode
(the only two modes that reach this code). -/
def maxDistance (pp : Params) (d : Fin 3) : ℚ :=
  if pp.mode = "gaussian" then get3 pp.sigma d else 1 / 2 * get3 pp.sigma d

/-- The normalization tail of `__get_descriptors` (lines 214-235): affine
rescaling of the offset channels by `max_distance` and of the Pearson
channels, zeroing of those six channels at background voxels, then clipping
every channel to `[0, 1]`. -/
def normalizeDescriptors (pp : Params) (raw : Desc) (seg : P3 → ℤ) : Desc :=
  fun ch p =>
    let bg : ℚ := if seg p = 0 then 0 else 1
    clip01
      (if h3 : ch.val < 3 then
        (raw ch p / maxDistance pp ⟨ch.val, h3⟩ * (1 / 2) + 1 / 2) * bg
      else if 6 ≤ ch.val ∧ ch.val < 9 then
        (raw ch p * (1 / 2) + 1 / 2) * bg
      else raw ch p)

/-- `__get_descriptors`: accumulate the per-label statistics, then
normalize. -/
def getDescriptors (ctx : Ctx) (pp : Params) (seg : P3 → ℤ)
    (shape : ℕ × ℕ × ℕ) (roi : Roi) : Except PyError Desc :=
  (accumE ctx pp seg shape roi).map (fun R => normalizeDescriptors pp R seg)

/-- The descriptor value of a successful computation (0 on failure),
used to instantiate theorems at concrete inputs. -/
def descOf (ctx : Ctx) (pp : Params) (seg : P3 → ℤ) (shape : ℕ × ℕ × ℕ)
    (roi : Roi) : Desc :=
  ((getDescriptors ctx pp seg shape roi).toOption).getD (fun _ _ => 0)

/-- The raw accumulated descriptor of a successful computation (0 on
failure), used to instantiate theorems at concrete inputs. -/
def accumOf (ctx : Ctx) (pp : Params) (seg : P3 → ℤ) (shape : ℕ × ℕ × ℕ)
    (roi : Roi) : Desc :=
  ((accumE ctx pp seg shape roi).toOption).getD (fun _ _ => 0)

/-! ## The pipeline node (`setup` / `prepare` / `process`)

`gunpowder` glue around the descriptor engine.  A `gunpowder` array spec
carries one voxel-size component per array dimension, so the length of the
stored `self.voxel_size` equals the rank of the segmentation volume; the
rank check `assert dims == 3` in `process` is a check on that length. -/

/-- The mutable state of an `AddLocalShapeDescriptor` node. -/
structure NodeState where
  sigma : ℚ × ℚ × ℚ
  mode : String
  df : ℕ
  hasMaskKey : Bool
  voxelSize : List ℤ
  context : ℚ × ℚ × ℚ
  skip : Bool

/-- The segmentation array of a batch: integer data (0-based indices into
its own extent) plus its world-unit region. -/
structure GArrayI where
  data : P3 → ℤ
  roi : Roi

/-- A 10-channel float array of a batch. -/
structure DescArr where
  ddata : Desc
  droi : Roi

/-- A batch as seen by `process`: the segmentation plus the optional
descriptor and mask arrays this node may add. -/
structure Batch where
  seg : GArrayI
  desc : Option DescArr
  maskArr : Option DescArr

/-- A downstream request: which of the node's keys are requested, and the
requested world-unit regions. -/
structure Request where
  hasDesc : Bool
  hasMask : Bool
  segRoi : Roi
  descRoi : Roi

/-- `setup` (lines 64-80): store the voxel size of the segmentation spec
and compute the context (`3*sigma` for gaussian, `sigma` for sphere).  The
unknown-mode branch executes `raise RuntimeError("Unkown mode %s"%mode)`;
the local name `mode` is undefined there (the attribute is `self.mode`), so
Python raises `NameError` before any `RuntimeError` is constructed. -/
def setup (st : NodeState) (specVoxelSize : List ℤ) : Except PyError NodeState :=
  if st.mode = "gaussian" then
    Except.ok { st with
      voxelSize := specVoxelSize
      context := (3 * st.sigma.1, 3 * st.sigma.2.1, 3 * st.sigma.2.2) }
  else if st.mode = "sphere" then
    Except.ok { st with voxelSize := specVoxelSize, context := st.sigma }
  else Except.error (PyError.nameError "mode")

/-- `Roi.intersect`. -/
def Roi.inter (a b : Roi) : Roi :=
  ⟨max a.o1 b.o1, max a.o2 b.o2, max a.o3 b.o3,
   (min (a.o1 + a.s1) (b.o1 + b.s1) - max a.o1 b.o1).toNat,
   (min (a.o2 + a.s2) (b.o2 + b.s2) - max a.o2 b.o2).toNat,
   (min (a.o3 + a.s3) (b.o3 + b.s3) - max a.o3 b.o3).toNat⟩

/-- `Roi.union`. -/
def Roi.union (a b : Roi) : Roi :=
  ⟨min a.o1 b.o1, min a.o2 b.o2, min a.o3 b.o3,
   (max (a.o1 + a.s1) (b.o1 + b.s1) - min a.o1 b.o1).toNat,
   (max (a.o2 + a.s2) (b.o2 + b.s2) - min a.o2 b.o2).toNat,
   (max (a.o3 + a.s3) (b.o3 + b.s3) - min a.o3 b.o3).toNat⟩

/-- Translation of a region by the negation of a point (`roi - offset`). -/
def Roi.shiftNeg (a : Roi) (v : P3) : Roi :=
  ⟨a.o1 - v.1, a.o2 - v.2.1, a.o3 - v.2.2, a.s1, a.s2, a.s3⟩

/-- `roi / voxel_size`: componentwise integer division from world units to
voxel units. -/
def Roi.divideBy (a : Roi) (v : P3) : Roi :=
  ⟨a.o1.ediv v.1, a.o2.ediv v.2.1, a.o3.ediv v.2.2,
   a.s1 / v.1.toNat, a.s2 / v.2.1.toNat, a.s3 / v.2.2.toNat⟩

/-- `roi.grow(context, context)`: world coordinates are integral, so the
rational context is modelled as growing by its ceiling on both sides. -/
def Roi.growQ (a : Roi) (c : ℚ × ℚ × ℚ) : Roi :=
  ⟨a.o1 - Int.ceil c.1, a.o2 - Int.ceil c.2.1, a.o3 - Int.ceil c.2.2,
   a.s1 + 2 * (Int.ceil c.1).toNat, a.s2 + 2 * (Int.ceil c.2.1).toNat,
   a.s3 + 2 * (Int.ceil c.2.2).toNat⟩

/-- `prepare` (lines 82-101): when the descriptor is requested, grow the
segmentation request by the context, remove the descriptor key and clear
the skip flag; otherwise set the skip flag.  A requested mask key is always
removed. -/
def prepare (st : NodeState) (req : Request) : NodeState × Request :=
  let req1 := if st.hasMaskKey && req.hasMask then { req with hasMask := false } else req
  if req.hasDesc then
    ({ st with skip := false },
     { req1 with
       hasDesc := false
       segRoi := req.segRoi.union (req.descRoi.growQ st.context) })
  else ({ st with skip := true }, req1)

/-- The assertion message of the rank check in `process`. -/
def dims3Msg : String := "AddLocalShapeDescriptor only works on 3D arrays."

/-- The body of `process` after the skip return and the rank assertion
(lines 112-143): compute the voxel-unit region of the requested
descriptors inside the segmentation, run `__get_descriptors`, add the
descriptor (and, when requested, mask) arrays, and crop the segmentation
back to its originally requested region. -/
def processBody (ctx : Ctx) (st : NodeState) (batch : Batch) (req : Request) :
    Except PyError Batch :=
  let v : P3 := (st.voxelSize.getD 0 1, st.voxelSize.getD 1 1, st.voxelSize.getD 2 1)
  let segRoi := batch.seg.roi
  let voxelRoiInSeg := ((segRoi.inter req.descRoi).shiftNeg (roiOff segRoi)).divideBy v
  let shape : ℕ × ℕ × ℕ :=
    (segRoi.s1 / v.1.toNat, segRoi.s2 / v.2.1.toNat, segRoi.s3 / v.2.2.toNat)
  let pp : Params :=
    ⟨st.sigma, ((v.1 : ℚ), (v.2.1 : ℚ), (v.2.2 : ℚ)), st.mode, st.df⟩
  (getDescriptors ctx pp batch.seg.data shape voxelRoiInSeg).map (fun D =>
    let descCropOff : P3 :=
      ((req.descRoi.o1 - segRoi.o1).ediv v.1, (req.descRoi.o2 - segRoi.o2).ediv v.2.1,
       (req.descRoi.o3 - segRoi.o3).ediv v.2.2)
    let channelMask : Desc := fun _ p =>
      if batch.seg.data (addP p descCropOff) = 0 then 0 else 1
    let segCropOff : P3 :=
      ((req.segRoi.o1 - segRoi.o1).ediv v.1, (req.segRoi.o2 - segRoi.o2).ediv v.2.1,
       (req.segRoi.o3 - segRoi.o3).ediv v.2.2)
    let croppedSeg : GArrayI := ⟨fun p => batch.seg.data (addP p segCropOff), req.segRoi⟩
    { seg := croppedSeg,
      desc := some ⟨D, req.descRoi⟩,
      maskArr := if st.hasMaskKey && req.hasMask then some ⟨channelMask, req.descRoi⟩
        else batch.maskArr })

/-- `process` (lines 103-143): return the batch untouched when the skip
flag is set; otherwise assert that the volume is 3-dimensional (the stored
voxel size has one component per segmentation dimension) and run the body. -/
def process (ctx : Ctx) (st : NodeState) (batch : Batch) (req : Request) :
    Except PyError Batch :=
  if st.skip then Except.ok batch
  else if st.voxelSize.length = 3 then processBody ctx st batch req
  else Except.error (PyError.assertionError dims3Msg)

/-! ## Concrete instances used to instantiate the theorems -/

/-- A context instantiation with trivial library routines; the theorems
below are established for every context, so any instantiation serves as a
concrete evaluation point (the sphere-mode computations never use `gauss`). -/
def ctx0 : Ctx := ⟨fun _ f => f, fun q => q⟩

/-- A 2x2x2 volume entirely filled by label 1. -/
def seg1 : P3 → ℤ := fun _ => 1

/-- The all-background volume. -/
def segZero : P3 → ℤ := fun _ => 0

/-- Shape of the 2x2x2 test volume. -/
def shape2 : ℕ × ℕ × ℕ := (2, 2, 2)

/-- The full region of the 2x2x2 test volume. -/
def roi2 : Roi := ⟨0, 0, 0, 2, 2, 2⟩

/-- Sphere-mode parameters with unit sigma, unit voxels, no downsampling. -/
def ppS : Params := ⟨(1, 1, 1), (1, 1, 1), "sphere", 1⟩

/-- Sphere-mode parameters with anisotropic sigma `(3,3,5)`. -/
def pp335 : Params := ⟨(3, 3, 5), (1, 1, 1), "sphere", 1⟩

/-- Sphere-mode parameters with isotropic sigma `(4,4,4)`. -/
def pp444 : Params := ⟨(4, 4, 4), (1, 1, 1), "sphere", 1⟩

/-- A raw descriptor with every channel constantly `1/2`. -/
def rawHalf : Desc := fun _ _ => 1 / 2

/-- Node state whose stored voxel size has two components, as set up from a
2D segmentation spec. -/
def st2D : NodeState := ⟨(1, 1, 1), "gaussian", 1, false, [1, 1], (3, 3, 3), false⟩

/-- Node state whose stored voxel size has three components, as set up from
a 3D segmentation spec. -/
def st3D : NodeState := ⟨(1, 1, 1), "gaussian", 1, false, [1, 1, 1], (3, 3, 3), false⟩

/-- Node state configured with an unknown mode string. -/
def stFoo : NodeState := ⟨(5, 5, 5), "foo", 1, false, [], (0, 0, 0), false⟩

/-- Node state configured for sphere mode with anisotropic sigma `(3,3,5)`. -/
def st335 : NodeState := ⟨(3, 3, 5), "sphere", 1, false, [], (0, 0, 0), false⟩

/-- A small batch holding the all-background segmentation. -/
def batch0 : Batch := ⟨⟨segZero, roi2⟩, none, none⟩

/-- A request that does not ask for the descriptor. -/
def req0 : Request := ⟨false, false, roi2, roi2⟩

/-! ## Helper lemmas -/

/-- The clip keeps every value inside `[0, 1]`. -/
theorem clip01_bounds (x : ℚ) : 0 ≤ clip01 x ∧ clip01 x ≤ 1 :=
  ⟨le_max_left 0 _, max_le (by norm_num) (min_le_right x 1)⟩

/-- Clipping fixes `1/2`. -/
theorem clip01_half : clip01 (1 / 2) = 1 / 2 := by norm_num [clip01]

/-- At a background voxel the normalization zeroes the offset and Pearson
channels, whatever the raw accumulated values were. -/
theorem normalize_background (pp : Params) (raw : Desc) (seg : P3 → ℤ) (p : P3)
    (hseg : seg p = 0) (ch : Fin 10)
    (hch : ch.val < 3 ∨ (6 ≤ ch.val ∧ ch.val < 9)) :
    normalizeDescriptors pp raw seg ch p = 0 := by
  rcases hch with h3 | h69
  · norm_num [normalizeDescriptors, hseg, dif_pos h3, clip01]
  · have h3 : ¬ ch.val < 3 := by omega
    norm_num [normalizeDescriptors, hseg, dif_neg h3, if_pos h69, clip01, h69]

/-- Membership after sorted insertion. -/
theorem mem_insertSorted (x a : ℤ) (l : List ℤ) :
    x ∈ insertSorted a l ↔ x = a ∨ x ∈ l := by
  induction l with
  | nil => simp [insertSorted]
  | cons y ys ih =>
    rw [insertSorted]
    split
    · simp [List.mem_cons]
    · simp only [List.mem_cons, ih]
      tauto

/-- Sorting preserves membership. -/
theorem mem_sortInts (x : ℤ) (l : List ℤ) : x ∈ sortInts l ↔ x ∈ l := by
  induction l with
  | nil => simp [sortInts]
  | cons y ys ih => rw [sortInts, mem_insertSorted]; simp [ih]

/-- Removing adjacent duplicates preserves membership. -/
theorem mem_dedupAdj (x : ℤ) (l : List ℤ) : x ∈ dedupAdj l ↔ x ∈ l := by
  induction l with
  | nil => simp [dedupAdj]
  | cons y ys ih =>
    cases ys with
    | nil => simp [dedupAdj]
    | cons z zs =>
      rw [dedupAdj]
      split
      · rename_i hyz
        rw [ih]
        simp [List.mem_cons, hyz]
      · simp only [List.mem_cons, ih]

/-- The label of a nonzero voxel of the region occurs in the label list. -/
theorem mem_labelsIn (seg : P3 → ℤ) (r : Roi) (p : P3)
    (hp : p ∈ pointsList r) (hnz : seg p ≠ 0) : seg p ∈ labelsIn seg r := by
  rw [labelsIn, List.mem_filter]
  constructor
  · rw [mem_dedupAdj, mem_sortInts]
    exact List.mem_map_of_mem _ hp
  · simpa using hnz

/-- A fold in the `Except` monad whose every step succeeds succeeds. -/
theorem foldlM_ok {α β : Type _} (f : β → α → Except PyError β)
    (h : ∀ b a, ∃ y, f b a = Except.ok y) :
    ∀ (l : List α) (b : β), ∃ R, l.foldlM f b = Except.ok R := by
  intro l
  induction l with
  | nil => intro b; exact ⟨b, rfl⟩
  | cons a as ih =>
    intro b
    obtain ⟨y, hy⟩ := h b a
    obtain ⟨R, hR⟩ := ih y
    refine ⟨R, ?_⟩
    have hc : (a :: as).foldlM f b = f b a >>= fun b2 => as.foldlM f b2 := rfl
    rw [hc, hy]
    exact hR

/-- The sigma-in-voxels of the anisotropic sphere parameters. -/
theorem subSigmaVoxel_pp335 : subSigmaVoxel pp335 = ((3:ℚ), (3:ℚ), (5:ℚ)) := by
  norm_num [subSigmaVoxel, pp335]

/-- With anisotropic sigma in voxels, every iteration of the label loop
fails with the isotropy assertion of `__aggregate`. -/
theorem stepLabel335_err (ctx : Ctx) (seg : P3 → ℤ) (shape : ℕ × ℕ × ℕ)
    (roi : Roi) (acc : Desc) (label : ℤ) :
    stepLabel ctx pp335 seg shape roi acc label =
      Except.error (PyError.assertionError isotropyMsg) := by
  have h : aggFunE ctx (subSigmaVoxel pp335) pp335.mode (subRoi roi pp335.df) =
      Except.error (PyError.assertionError isotropyMsg) := by
    rw [subSigmaVoxel_pp335, show pp335.mode = "sphere" from rfl, aggFunE,
      if_neg (by decide), if_pos rfl, if_neg (by norm_num)]
  rw [stepLabel, getStatsE, h]
  rfl

/-- With isotropic sigma `(4,4,4)`, every iteration of the label loop
succeeds. -/
theorem stepLabel444_ok (ctx : Ctx) (seg : P3 → ℤ) (shape : ℕ × ℕ × ℕ)
    (roi : Roi) (acc : Desc) (label : ℤ) :
    ∃ d, stepLabel ctx pp444 seg shape roi acc label = Except.ok d := by
  have hs444 : subSigmaVoxel pp444 = ((4:ℚ), (4:ℚ), (4:ℚ)) := by
    norm_num [subSigmaVoxel, pp444]
  have h : aggFunE ctx (subSigmaVoxel pp444) pp444.mode (subRoi roi pp444.df) =
      Except.ok (fun f => restrict (subRoi roi pp444.df)
        (convolveK (sphereSize (4:ℚ)) (makeSphere (4:ℚ)) f)) := by
    have hc : (((4:ℚ),(4:ℚ),(4:ℚ)) : ℚ×ℚ×ℚ).2.1 = (((4:ℚ),(4:ℚ),(4:ℚ)) : ℚ×ℚ×ℚ).1 ∧
        (((4:ℚ),(4:ℚ),(4:ℚ)) : ℚ×ℚ×ℚ).2.2 = (((4:ℚ),(4:ℚ),(4:ℚ)) : ℚ×ℚ×ℚ).1 :=
      And.intro rfl rfl
    rw [hs444, show pp444.mode = "sphere" from rfl, aggFunE, if_neg (by decide),
      if_pos rfl, if_pos hc]
  rw [stepLabel, getStatsE, h]
  exact ⟨_, rfl⟩

/-- The kernel side length for an integral radius is `2r`
(`np.arange(-r, r)` has `2r` entries). -/
theorem sphereSize_natCast (r : ℕ) : sphereSize (r : ℚ) = 2 * r := by
  rw [sphereSize]
  have h : (2 * (r:ℚ)) = ((2 * r : ℕ) : ℚ) := by push_cast; ring
  rw [h, Int.ceil_natCast]
  exact Int.toNat_natCast _

/-- The kernel side length for an integral radius, as an integer bound. -/
theorem sphereSizeZ (r : ℕ) : ((sphereSize (r:ℚ) : ℕ) : ℤ) = 2 * (r:ℤ) := by
  rw [sphereSize_natCast]; push_cast; ring

/-- The sphere kernel is nonnegative. -/
theorem makeSphere_nonneg (r : ℚ) (j : P3) : 0 ≤ makeSphere r j := by
  rw [makeSphere]
  split_ifs <;> norm_num

/-- Convolution of nonnegative fields with nonnegative kernels is
nonnegative. -/
theorem convolveK_nonneg (n : ℕ) (w f : P3 → ℚ) (hw : ∀ j, 0 ≤ w j)
    (hf : ∀ q, 0 ≤ f q) (p : P3) : 0 ≤ convolveK n w f p := by
  rw [convolveK]
  refine Finset.sum_nonneg fun a _ => Finset.sum_nonneg fun b _ =>
    Finset.sum_nonneg fun c _ => mul_nonneg (hw _) (hf _)

/-- The sigma-in-voxels of the unit sphere parameters. -/
theorem subSigmaVoxel_ppS : subSigmaVoxel ppS = (1, 1, 1) := by
  norm_num [subSigmaVoxel, ppS]

/-- `np.arange(-1, 1)` has two entries. -/
theorem sphereSize_one : sphereSize 1 = 2 := by norm_num [sphereSize]; rfl

/-- The resolved sphere aggregation functional of the unit-sigma test
computation. -/
theorem aggFunE_ppS : aggFunE ctx0 (1, 1, 1) "sphere" roi2 =
    Except.ok (fun f => restrict roi2 (convolveK (sphereSize 1) (makeSphere 1) f)) := by
  have hc : (((1:ℚ),(1:ℚ),(1:ℚ)) : ℚ×ℚ×ℚ).2.1 = (((1:ℚ),(1:ℚ),(1:ℚ)) : ℚ×ℚ×ℚ).1 ∧
      (((1:ℚ),(1:ℚ),(1:ℚ)) : ℚ×ℚ×ℚ).2.2 = (((1:ℚ),(1:ℚ),(1:ℚ)) : ℚ×ℚ×ℚ).1 :=
    And.intro rfl rfl
  rw [aggFunE, if_neg (by decide), if_pos rfl, if_pos hc]

/-- The accumulated raw descriptor of the unit-sigma test computation on
the fully labelled 2x2x2 volume. -/
theorem accumE_val : accumE ctx0 ppS seg1 shape2 roi2 =
    Except.ok (fun ch p =>
      0 + contribution (statsPure ctx0.sqrtQ
        (fun f => restrict roi2 (convolveK (sphereSize 1) (makeSphere 1) f))
        ppS.sigma (coordsF (subVoxelSize ppS)) (subMaskOf seg1 shape2 1 1) roi2)
        (maskOf seg1 shape2 1) roi2 1 ch p) := by
  have h4 : labelsIn seg1 roi2 = [1] := by decide
  have hdf : ppS.df = 1 := rfl
  have hmode : ppS.mode = "sphere" := rfl
  have hsub : subRoi roi2 1 = roi2 := by decide
  rw [accumE, h4]
  simp only [List.foldlM, stepLabel, getStatsE, hdf, hmode, subSigmaVoxel_ppS,
    hsub, aggFunE_ppS]
  simp [Except.map, Except.bind, Bind.bind, Pure.pure, Except.pure]

/-- The accumulated raw descriptor of the all-background computation is
zero (the label loop has nothing to iterate over). -/
theorem accumE_zero : accumE ctx0 ppS segZero shape2 roi2 =
    Except.ok (fun _ _ => 0) := by
  have h : labelsIn segZero roi2 = [] := by decide
  rw [accumE, h]
  rfl

/-- The spherical occupancy count of the fully labelled 2x2x2 volume at
the origin: the kernel hits four inside voxels. -/
theorem convolveK_val : convolveK (sphereSize 1) (makeSphere 1)
    (subMaskOf seg1 shape2 1 1) (0, 0, 0) = 4 := by
  rw [sphereSize_one]
  norm_num [convolveK, makeSphere, sphereSize_one, subMaskOf, maskOf, seg1, shape2,
    Finset.sum_range_succ, Finset.sum_range_zero]

/-- The substituted count of the test computation at the origin (nonzero,
so the substitution leaves it alone). -/
theorem substCount_val : substCount (restrict roi2 (convolveK (sphereSize 1)
    (makeSphere 1) (subMaskOf seg1 shape2 1 1))) (0, 0, 0) = 4 := by
  have hg : restrict roi2 (convolveK (sphereSize 1) (makeSphere 1)
      (subMaskOf seg1 shape2 1 1)) (0, 0, 0) =
      convolveK (sphereSize 1) (makeSphere 1) (subMaskOf seg1 shape2 1 1) (0, 0, 0) := rfl
  rw [substCount, hg, convolveK_val]
  norm_num

/-- The raw count channel of the test computation at the origin is 4. -/
theorem accumOf_val : accumOf ctx0 ppS seg1 shape2 roi2 9 (0, 0, 0) = 4 := by
  unfold accumOf
  rw [accumE_val]
  simp only [Except.toOption, Option.getD]
  have hstep : contribution (statsPure ctx0.sqrtQ
      (fun f => restrict roi2 (convolveK (sphereSize 1) (makeSphere 1) f))
      ppS.sigma (coordsF (subVoxelSize ppS)) (subMaskOf seg1 shape2 1 1) roi2)
      (maskOf seg1 shape2 1) roi2 1 9 (0, 0, 0) =
      substCount (restrict roi2 (convolveK (sphereSize 1) (makeSphere 1)
        (subMaskOf seg1 shape2 1 1))) (0, 0, 0) * 1 := rfl
  rw [hstep, substCount_val]
  norm_num

/-- The output count channel of the test computation at the origin is the
clipped value 1. -/
theorem descOf_val : descOf ctx0 ppS seg1 shape2 roi2 9 (0, 0, 0) = 1 := by
  unfold descOf
  rw [getDescriptors, accumE_val]
  simp only [Except.map, Except.toOption, Option.getD]
  have hnorm : normalizeDescriptors ppS (fun ch p =>
      0 + contribution (statsPure ctx0.sqrtQ
        (fun f => restrict roi2 (convolveK (sphereSize 1) (makeSphere 1) f))
        ppS.sigma (coordsF (subVoxelSize ppS)) (subMaskOf seg1 shape2 1 1) roi2)
        (maskOf seg1 shape2 1) roi2 1 ch p) seg1 9 (0, 0, 0) =
      clip01 (0 + substCount (restrict roi2 (convolveK (sphereSize 1) (makeSphere 1)
        (subMaskOf seg1 shape2 1 1))) (0, 0, 0) * 1) := rfl
  rw [hnorm, substCount_val]
  norm_num [clip01]

/-- The test computation succeeds and returns `descOf` at its inputs. -/
theorem getD_seg1_ok : getDescriptors ctx0 ppS seg1 shape2 roi2 =
    Except.ok (descOf ctx0 ppS seg1 shape2 roi2) := by
  unfold descOf
  rw [getDescriptors, accumE_val]
  rfl

/-- The all-background computation succeeds and returns `descOf` at its
inputs. -/
theorem getD_segZero_ok : getDescriptors ctx0 ppS segZero shape2 roi2 =
    Except.ok (descOf ctx0 ppS segZero shape2 roi2) := by
  unfold descOf
  rw [getDescriptors, accumE_zero]
  rfl

/-- The test computation accumulates `accumOf` at its inputs. -/
theorem accumE_seg1_ok : accumE ctx0 ppS seg1 shape2 roi2 =
    Except.ok (accumOf ctx0 ppS seg1 shape2 roi2) := by
  unfold accumOf
  rw [accumE_val]
  rfl

/-! ## Claims -/

/-- C1: for every input segmentation and every voxel whose label is 0, the
returned descriptor's offset channels (0,1,2) and Pearson channels (6,7,8)
are exactly 0 after normalization, while the variance channels (3,4,5) and
the count channel (9) are not forced to 0 by the background zeroing: there
is a raw accumulated value (constantly `1/2`) that the normalization maps
to a nonzero output on channels 3, 4, 5 and 9 at a background voxel. -/
theorem C1_background_zeroing :
    (∀ (ctx : Ctx) (pp : Params) (seg : P3 → ℤ) (shape : ℕ × ℕ × ℕ) (roi : Roi)
        (D : Desc) (p : P3),
        getDescriptors ctx pp seg shape roi = Except.ok D → seg p = 0 →
        ∀ ch : Fin 10, (ch.val < 3 ∨ (6 ≤ ch.val ∧ ch.val < 9)) → D ch p = 0) ∧
    (segZero (0, 0, 0) = 0 ∧
     normalizeDescriptors ppS rawHalf segZero 3 (0, 0, 0) = 1 / 2 ∧
     normalizeDescriptors ppS rawHalf segZero 4 (0, 0, 0) = 1 / 2 ∧
     normalizeDescriptors ppS rawHalf segZero 5 (0, 0, 0) = 1 / 2 ∧
     normalizeDescriptors ppS rawHalf segZero 9 (0, 0, 0) = 1 / 2) := by
  constructor
  · intro ctx pp seg shape roi D p hD hseg ch hch
    rw [getDescriptors] at hD
    cases haccum : accumE ctx pp seg shape roi with
    | error e => rw [haccum] at hD; simp [Except.map] at hD
    | ok R =>
      rw [haccum] at hD
      simp only [Except.map, Except.ok.injEq] at hD
      subst hD
      exact normalize_background pp R seg p hseg ch hch
  · refine ⟨rfl, ?_, ?_, ?_, ?_⟩
    · have h : normalizeDescriptors ppS rawHalf segZero 3 (0, 0, 0) =
          clip01 (1 / 2) := rfl
      rw [h, clip01_half]
    · have h : normalizeDescriptors ppS rawHalf segZero 4 (0, 0, 0) =
          clip01 (1 / 2) := rfl
      rw [h, clip01_half]
    · have h : normalizeDescriptors ppS rawHalf segZero 5 (0, 0, 0) =
          clip01 (1 / 2) := rfl
      rw [h, clip01_half]
    · have h : normalizeDescriptors ppS rawHalf segZero 9 (0, 0, 0) =
          clip01 (1 / 2) := rfl
      rw [h, clip01_half]

/-- Witness for C1 at a concrete input: the all-background computation
returns 0 on offset channel 0 at the origin. -/
theorem C1_background_zeroing_witness :
    descOf ctx0 ppS segZero shape2 roi2 0 (0, 0, 0) = 0 :=
  C1_background_zeroing.1 ctx0 ppS segZero shape2 roi2
    (descOf ctx0 ppS segZero shape2 roi2) (0, 0, 0) getD_segZero_ok rfl 0
    (Or.inl (by norm_num))

/-- C2: for every input, every value of every one of the 10 channels of the
returned descriptor lies in the closed interval `[0, 1]` after the final
clipping step. -/
theorem C2_range_bound :
    ∀ (ctx : Ctx) (pp : Params) (seg : P3 → ℤ) (shape : ℕ × ℕ × ℕ) (roi : Roi)
      (D : Desc), getDescriptors ctx pp seg shape roi = Except.ok D →
      ∀ (ch : Fin 10) (p : P3), 0 ≤ D ch p ∧ D ch p ≤ 1 := by
  intro ctx pp seg shape roi D hD ch p
  rw [getDescriptors] at hD
  cases haccum : accumE ctx pp seg shape roi with
  | error e => rw [haccum] at hD; simp [Except.map] at hD
  | ok R =>
    rw [haccum] at hD
    simp only [Except.map, Except.ok.injEq] at hD
    subst hD
    simp only [normalizeDescriptors]
    exact clip01_bounds _

/-- Witness for C2 at a concrete input: the count channel of the test
computation at the origin lies in `[0, 1]`. -/
theorem C2_range_bound_witness :
    0 ≤ descOf ctx0 ppS seg1 shape2 roi2 9 (0, 0, 0) ∧
    descOf ctx0 ppS seg1 shape2 roi2 9 (0, 0, 0) ≤ 1 :=
  C2_range_bound ctx0 ppS seg1 shape2 roi2 (descOf ctx0 ppS seg1 shape2 roi2)
    getD_seg1_ok 9 (0, 0, 0)

/-- C3, counterexample to the claim as stated: on the fully labelled 2x2x2
sphere-mode input the raw accumulated count at the origin is 4, but the
returned count channel is the clipped value 1, so the output does not equal
the raw accumulated count unchanged. -/
theorem C3_count_channel_cex :
    accumOf ctx0 ppS seg1 shape2 roi2 9 (0, 0, 0) = 4 ∧
    descOf ctx0 ppS seg1 shape2 roi2 9 (0, 0, 0) = 1 ∧
    descOf ctx0 ppS seg1 shape2 roi2 9 (0, 0, 0) ≠
      accumOf ctx0 ppS seg1 shape2 roi2 9 (0, 0, 0) := by
  refine ⟨accumOf_val, descOf_val, ?_⟩
  rw [accumOf_val, descOf_val]
  norm_num

/-- C3, amended: the count channel (9) of the returned descriptor equals
the raw accumulated kernel-weighted count clipped to `[0, 1]`; it is not
affinely rescaled by the normalization (unlike channels 0-2 and 6-8), but
the final clip applies to it like to every channel. -/
theorem C3_count_channel :
    ∀ (ctx : Ctx) (pp : Params) (seg : P3 → ℤ) (shape : ℕ × ℕ × ℕ) (roi : Roi)
      (R D : Desc), accumE ctx pp seg shape roi = Except.ok R →
      getDescriptors ctx pp seg shape roi = Except.ok D →
      ∀ p, D 9 p = clip01 (R 9 p) := by
  intro ctx pp seg shape roi R D hR hD
  rw [getDescriptors, hR] at hD
  simp only [Except.map, Except.ok.injEq] at hD
  subst hD
  intro p
  rfl

/-- Witness for the amended C3 at a concrete input. -/
theorem C3_count_channel_witness :
    descOf ctx0 ppS seg1 shape2 roi2 9 (0, 0, 0) =
      clip01 (accumOf ctx0 ppS seg1 shape2 roi2 9 (0, 0, 0)) :=
  C3_count_channel ctx0 ppS seg1 shape2 roi2
    (accumOf ctx0 ppS seg1 shape2 roi2) (descOf ctx0 ppS seg1 shape2 roi2)
    accumE_seg1_ok getD_seg1_ok (0, 0, 0)

/-- C4, counterexample to the claim as stated: with mode sphere, anisotropic
sigma `(3,3,5)`, unit voxels and an entirely background region, the
computation succeeds — the isotropy assertion lives inside `__aggregate`,
which only runs when the region contains a nonzero label. -/
theorem C4_sphere_isotropy_cex :
    (getDescriptors ctx0 pp335 segZero shape2 roi2).toOption.isSome = true := by
  have h : labelsIn segZero roi2 = [] := by decide
  rw [getDescriptors, accumE, h]
  rfl

/-- C4, amended: with mode sphere and sigma `(3,3,5)` over unit voxels,
computing descriptors raises the isotropy assertion provided the requested
region contains at least one nonzero voxel (with an entirely background
region no aggregation runs and the call succeeds); isotropic sigma
`(4,4,4)` always succeeds; and the error is raised at computation time —
setup succeeds for sphere mode whatever the sigma. -/
theorem C4_sphere_isotropy :
    (∀ (ctx : Ctx) (seg : P3 → ℤ) (shape : ℕ × ℕ × ℕ) (roi : Roi) (p : P3),
        p ∈ pointsList roi → seg p ≠ 0 →
        getDescriptors ctx pp335 seg shape roi =
          Except.error (PyError.assertionError isotropyMsg)) ∧
    (∀ (ctx : Ctx) (seg : P3 → ℤ) (shape : ℕ × ℕ × ℕ) (roi : Roi),
        ∃ D, getDescriptors ctx pp444 seg shape roi = Except.ok D) ∧
    (∀ (vs : List ℤ), ∃ st2, setup st335 vs = Except.ok st2) := by
  refine ⟨?_, ?_, ?_⟩
  · intro ctx seg shape roi p hp hnz
    have hne : labelsIn seg roi ≠ [] :=
      List.ne_nil_of_mem (mem_labelsIn seg roi p hp hnz)
    obtain ⟨l, ls, hl⟩ := List.exists_cons_of_ne_nil hne
    rw [getDescriptors, accumE, hl]
    have hcons : (l :: ls).foldlM (stepLabel ctx pp335 seg shape roi)
        (fun _ _ => (0:ℚ)) =
        stepLabel ctx pp335 seg shape roi (fun _ _ => 0) l >>= fun b =>
          ls.foldlM (stepLabel ctx pp335 seg shape roi) b := rfl
    rw [hcons, stepLabel335_err]
    rfl
  · intro ctx seg shape roi
    obtain ⟨R, hR⟩ := foldlM_ok _
      (fun b a => stepLabel444_ok ctx seg shape roi b a) (labelsIn seg roi)
      (fun _ _ => 0)
    refine ⟨normalizeDescriptors pp444 R seg, ?_⟩
    rw [getDescriptors, accumE, hR]
    rfl
  · intro vs
    refine ⟨{ st335 with voxelSize := vs, context := st335.sigma }, ?_⟩
    rw [setup, if_neg (by decide), if_pos (show st335.mode = "sphere" from rfl)]

/-- Witness for the amended C4 at a concrete input: the fully labelled
2x2x2 region with sigma `(3,3,5)` raises the isotropy assertion. -/
theorem C4_sphere_isotropy_witness :
    getDescriptors ctx0 pp335 seg1 shape2 roi2 =
      Except.error (PyError.assertionError isotropyMsg) :=
  C4_sphere_isotropy.1 ctx0 seg1 shape2 roi2 (0, 0, 0) (by decide) (by decide)

/-- C5: configuring an unknown mode makes `setup` fail — but with
`NameError` (the raise statement references the undefined local name
`mode` instead of `self.mode`), not with a `RuntimeError` identifying the
unknown mode string.  The error is still raised at setup time. -/
theorem C5_setup_unknown_mode :
    ∀ (st : NodeState) (vs : List ℤ),
      st.mode ≠ "gaussian" → st.mode ≠ "sphere" →
      setup st vs = Except.error (PyError.nameError "mode") := by
  intro st vs h1 h2
  rw [setup, if_neg h1, if_neg h2]

/-- Witness for C5 at a concrete input. -/
theorem C5_setup_unknown_mode_witness :
    setup stFoo [1, 1, 1] = Except.error (PyError.nameError "mode") :=
  C5_setup_unknown_mode stFoo [1, 1, 1] (by decide) (by decide)

/-- C6: when not skipped, `process` raises the unsupported-input assertion
exactly when the stored voxel size (one component per dimension of the
segmentation volume) does not have three components; with three components
the check passes and the descriptor-computation body runs. -/
theorem C6_rank_guard :
    ∀ (ctx : Ctx) (st : NodeState) (batch : Batch) (req : Request),
      st.skip = false →
      ((st.voxelSize.length ≠ 3 →
          process ctx st batch req = Except.error (PyError.assertionError dims3Msg)) ∧
       (st.voxelSize.length = 3 →
          process ctx st batch req = processBody ctx st batch req)) := by
  intro ctx st batch req hskip
  constructor
  · intro hlen
    rw [process, if_neg (by simp [hskip]), if_neg hlen]
  · intro hlen
    rw [process, if_neg (by simp [hskip]), if_pos hlen]

/-- Witness for C6 at a concrete input: a node set up from a 2-dimensional
segmentation spec fails the rank assertion. -/
theorem C6_rank_guard_witness :
    process ctx0 st2D batch0 req0 = Except.error (PyError.assertionError dims3Msg) :=
  (C6_rank_guard ctx0 st2D batch0 req0 rfl).1 (by decide)

/-- C7: for an integral radius `r > 0`, the sphere kernel is binary and
equals 1 exactly on the integer grid positions of its `2r`-sized extent
whose squared Euclidean distance from the kernel center is at most `r²`;
sphere-mode aggregation resolves to zero-padded convolution with this
kernel restricted to the output region; and the convolution at a point is
the plain sum of the (zero-padded) field over the ball offsets. -/
theorem C7_sphere_kernel : ∀ (r : ℕ), 0 < r →
    (∀ i j k : ℤ, (makeSphere (r:ℚ) (i, j, k) = 1 ↔
        (0 ≤ i ∧ i < 2 * (r:ℤ) ∧ 0 ≤ j ∧ j < 2 * (r:ℤ) ∧ 0 ≤ k ∧ k < 2 * (r:ℤ) ∧
         ((i:ℚ) - r) ^ 2 + ((j:ℚ) - r) ^ 2 + ((k:ℚ) - r) ^ 2 ≤ (r:ℚ) ^ 2)) ∧
      (makeSphere (r:ℚ) (i, j, k) = 0 ∨ makeSphere (r:ℚ) (i, j, k) = 1)) ∧
    (∀ (ctx : Ctx) (roi : Roi),
      aggFunE ctx ((r:ℚ), (r:ℚ), (r:ℚ)) "sphere" roi =
        Except.ok (fun f => restrict roi (convolveK (2 * r) (makeSphere (r:ℚ)) f))) ∧
    (∀ (f : P3 → ℚ) (p : P3), convolveK (2 * r) (makeSphere (r:ℚ)) f p =
      Finset.sum (Finset.range (2 * r)) fun a =>
        Finset.sum (Finset.range (2 * r)) fun b =>
          Finset.sum (Finset.range (2 * r)) fun c =>
            if ((a:ℚ) - r) ^ 2 + ((b:ℚ) - r) ^ 2 + ((c:ℚ) - r) ^ 2 ≤ (r:ℚ) ^ 2 then
              f (p.1 + (r:ℤ) - (a:ℤ), p.2.1 + (r:ℤ) - (b:ℤ), p.2.2 + (r:ℤ) - (c:ℤ))
            else 0) := by
  intro r hr
  refine ⟨?_, ?_, ?_⟩
  · intro i j k
    constructor
    · rw [makeSphere]
      simp only [sphereSizeZ]
      split_ifs with h1 h2
      · simp only [eq_self_iff_true, true_iff]
        obtain ⟨a1, a2, a3, a4, a5, a6⟩ := h1
        exact ⟨a1, a2, a3, a4, a5, a6, h2⟩
      · simp only [zero_ne_one, false_iff]
        intro hc
        exact h2 hc.2.2.2.2.2.2
      · simp only [zero_ne_one, false_iff]
        intro hc
        exact h1 ⟨hc.1, hc.2.1, hc.2.2.1, hc.2.2.2.1, hc.2.2.2.2.1, hc.2.2.2.2.2.1⟩
    · rw [makeSphere]
      split_ifs <;> simp
  · intro ctx roi
    rw [aggFunE, if_neg (by decide), if_pos rfl, if_pos (And.intro rfl rfl)]
    simp only [sphereSize_natCast]
  · intro f p
    have hdiv : 2 * r / 2 = r := Nat.mul_div_cancel_left r (by norm_num)
    rw [convolveK]
    simp only [hdiv]
    refine Finset.sum_congr rfl fun a ha => Finset.sum_congr rfl fun b hb =>
      Finset.sum_congr rfl fun c hc => ?_
    have ha2 : (a:ℤ) < 2 * (r:ℤ) := by exact_mod_cast Finset.mem_range.mp ha
    have hb2 : (b:ℤ) < 2 * (r:ℤ) := by exact_mod_cast Finset.mem_range.mp hb
    have hc2 : (c:ℤ) < 2 * (r:ℤ) := by exact_mod_cast Finset.mem_range.mp hc
    rw [makeSphere]
    simp only [sphereSizeZ]
    rw [if_pos ⟨Int.natCast_nonneg a, ha2, Int.natCast_nonneg b, hb2,
      Int.natCast_nonneg c, hc2⟩, ite_mul, one_mul, zero_mul]
    norm_cast

/-- Witness for C7 at radius 1: the resolved aggregation functional of the
unit sphere. -/
theorem C7_sphere_kernel_witness :
    aggFunE ctx0 (((1:ℕ):ℚ), ((1:ℕ):ℚ), ((1:ℕ):ℚ)) "sphere" roi2 =
      Except.ok (fun f => restrict roi2 (convolveK (2 * 1) (makeSphere ((1:ℕ):ℚ)) f)) :=
  (C7_sphere_kernel 1 (by decide)).2.1 ctx0 roi2

/-- C8: every division of the statistics computation is guarded.  For any
aggregation functional the code can resolve, the count used as divisor for
mean and covariance is strictly positive after the zero substitution
(aggregation of a nonnegative mask is nonnegative), every floored variance
is at least `1e-3`, and the Pearson divisor — the square root of a product
of floored variances — is strictly positive. -/
theorem C8_division_guards : ∀ (ctx : Ctx),
    (∀ q : ℚ, 0 < q → 0 < ctx.sqrtQ q) →
    (∀ (sv : ℚ × ℚ × ℚ) (g : P3 → ℚ), (∀ q, 0 ≤ g q) → ∀ p, 0 ≤ ctx.gauss sv g p) →
    ∀ (sv : ℚ × ℚ × ℚ) (mode : String) (roi : Roi) (mask : P3 → ℚ),
    (∀ q, 0 ≤ mask q) → ∀ A, aggFunE ctx sv mode roi = Except.ok A →
    (∀ p, 0 < substCount (A mask) p) ∧
    (∀ (v : P3 → ℚ) (p : P3), 1 / 1000 ≤ floorVar v p) ∧
    (∀ (v w : P3 → ℚ) (p : P3), 0 < ctx.sqrtQ (floorVar v p * floorVar w p)) := by
  intro ctx hs hg sv mode roi mask hm A hA
  have hfv : ∀ (v : P3 → ℚ) (p : P3), (1:ℚ) / 1000 ≤ floorVar v p := by
    intro v p
    rw [floorVar]
    split_ifs with h
    · exact le_refl _
    · exact le_of_not_lt h
  have hnn : ∀ p, 0 ≤ A mask p := by
    rw [aggFunE] at hA
    by_cases h1 : mode = "gaussian"
    · rw [if_pos h1] at hA
      simp only [Except.ok.injEq] at hA
      subst hA
      intro p
      simp only [restrict]
      split
      · exact hg sv mask hm p
      · exact le_refl 0
    · rw [if_neg h1] at hA
      by_cases h2 : mode = "sphere"
      · rw [if_pos h2] at hA
        by_cases h3 : sv.2.1 = sv.1 ∧ sv.2.2 = sv.1
        · rw [if_pos h3] at hA
          simp only [Except.ok.injEq] at hA
          subst hA
          intro p
          simp only [restrict]
          split
          · exact convolveK_nonneg _ _ _ (makeSphere_nonneg _) hm p
          · exact le_refl 0
        · rw [if_neg h3] at hA
          simp at hA
      · rw [if_neg h2] at hA
        simp at hA
  refine ⟨?_, hfv, ?_⟩
  · intro p
    rw [substCount]
    split_ifs with h
    · norm_num
    · exact lt_of_le_of_ne (hnn p) (Ne.symm h)
  · intro v w p
    apply hs
    apply mul_pos
    · exact lt_of_lt_of_le (by norm_num) (hfv v p)
    · exact lt_of_lt_of_le (by norm_num) (hfv w p)

/-- Witness for C8 at a concrete input: the substituted count of the
all-zero mask under the unit sphere aggregation is positive. -/
theorem C8_division_guards_witness :
    0 < substCount ((fun f => restrict roi2 (convolveK (sphereSize 1)
      (makeSphere 1) f)) (fun _ => 0)) (0, 0, 0) :=
  ((C8_division_guards ctx0 (fun _ h => h) (fun _ _ hgq p => hgq p) (1, 1, 1)
    "sphere" roi2 (fun _ => 0) (fun _ => le_refl 0) _ aggFunE_ppS).1) (0, 0, 0)

/-- C9: for every coarse multi-channel array and every positive downsample
factor, the strided-view-and-reshape upsampling equals the reference
index-mapping definition `fine_to_coarse(i) = i / f` on every channel and
fine index, and replicates each coarse voxel over its `f×f×f` block. -/
theorem C9_upsample_refinement : ∀ (C : Type) (A : C → P3 → ℚ) (f : ℕ), 0 < f →
    (∀ (ch : C) (p : P3), upsample A f ch p = upsampleSpecRef A f ch p) ∧
    (∀ (ch : C) (a b c p q r : ℤ), 0 ≤ p → p < (f:ℤ) → 0 ≤ q → q < (f:ℤ) →
      0 ≤ r → r < (f:ℤ) →
      upsample A f ch (a * f + p, b * f + q, c * f + r) = A ch (a, b, c)) := by
  intro C A f hf
  have hfz : (f : ℤ) ≠ 0 := by exact_mod_cast Nat.pos_iff_ne_zero.mp hf
  constructor
  · intro ch p; rfl
  · intro ch a b c p q r hp hpf hq hqf hr hrf
    have hdiv : ∀ (x y : ℤ), 0 ≤ y → y < (f:ℤ) → (x * f + y).ediv f = x := by
      intro x y hy hyf
      show (x * (f:ℤ) + y) / (f:ℤ) = x
      rw [add_comm, Int.add_mul_ediv_right _ _ hfz, Int.ediv_eq_zero_of_lt hy hyf,
        zero_add]
    show A ch ((a * f + p).ediv f, (b * f + q).ediv f, (c * f + r).ediv f) =
      A ch (a, b, c)
    rw [hdiv a p hp hpf, hdiv b q hq hqf, hdiv c r hr hrf]

/-- Witness for C9 at a concrete input: factor 2, fine index 5 reads coarse
index 2. -/
theorem C9_upsample_refinement_witness :
    upsample (fun (_ : Unit) (_ : P3) => (7:ℚ)) 2 () (5, 5, 5) = 7 :=
  (C9_upsample_refinement Unit (fun _ _ => (7:ℚ)) 2 (by decide)).2 () 2 2 2 1 1 1
    (by decide) (by decide) (by decide) (by decide) (by decide) (by decide)

/-- C10: when the incoming request does not contain the descriptor key,
`prepare` sets the skip flag and `process` returns the batch unchanged — no
descriptor or mask array is added and the segmentation array is not
cropped or otherwise modified. -/
theorem C10_skip_passthrough :
    ∀ (ctx : Ctx) (st : NodeState) (req req2 : Request) (batch : Batch),
      req.hasDesc = false →
      process ctx (prepare st req).1 batch req2 = Except.ok batch := by
  intro ctx st req req2 batch h
  have hskip : (prepare st req).1.skip = true := by
    simp [prepare, h]
  rw [process, if_pos hskip]

/-- Witness for C10 at a concrete input. -/
theorem C10_skip_passthrough_witness :
    process ctx0 (prepare st3D req0).1 batch0 req0 = Except.ok batch0 :=
  C10_skip_passthrough ctx0 st3D req0 req0 batch0 rfl

end Mala
